import Mathlib

/-!
Verification development for the `rifaniponk/amqp` client library.

The embedding covers the message construction pipeline (`src/message.go`:
`constructPublishing`, the options record, its option functions and
defaults) and the dial wrappers of the connection package
(`src/conn/dialers.go`). Go machine integers are modelled as `Nat`
(`uint8`) and `Int` (`int`, `time.Duration` in nanoseconds); byte slices
as `List Nat`; Go's multiple returns `(T, error)` as pairs with an
`Option` error component.
-/

namespace RifAmqp

/-! ## Values and the ContentTyper capability (src/message.go) -/

/-- Application values handed to the publish path. In Go a value is an
arbitrary interface{}; what the pipeline observes about it is whether it
implements `ContentTyper` (and, if so, which content type it reports) and
its payload as seen by a codec. A `typed` value implements `ContentTyper`
with `ContentType() = ct`; a `plain` value does not implement it. -/
inductive Value
  | typed (ct : String) (payload : Nat)
  | plain (payload : Nat)
deriving DecidableEq

/-- The dynamic capability check `ct, ok := v.(ContentTyper)` from
`constructPublishing`: `some ct` when the value implements the interface. -/
def contentTyper : Value → Option String
  | .typed ct _ => some ct
  | .plain _ => none

/-- Model of Go's `http.DetectContentType`. In `constructPublishing` the
sniffer only ever runs on `msg.Body` before any encoding, i.e. on the empty
byte slice, which the Go sniffer classifies as plain text; non-empty input
is classified generically (the Go function never returns an empty string). -/
def detectContentType (body : List Nat) : String :=
  if body.isEmpty then "text/plain; charset=utf-8" else "application/octet-stream"

/-- A codec as the spec's registry exposes it: `Encode(value) (bytes, error)`.
Both components of the Go return are kept, as `constructPublishing` assigns
`msg.Body` from the first regardless of the second. -/
structure Codec where
  encode : Value → List Nat × Option String

/-- The codec registry's lookup `codecs.Register.Get : contentType ↦ (codec, ok)`,
modelled as the spec describes the collaborator: a partial map from
MIME-type strings to codecs. -/
def Registry : Type := String → Option Codec

/-- Errors out of `constructPublishing`: the named `CodecNotFound` error
value, or an encoder failure carried verbatim. -/
inductive ConstructErr
  | codecNotFound
  | encodeError (msg : String)
deriving DecidableEq

/-- The fields of `amqp.Publishing` that `constructPublishing` writes:
Timestamp (time.Now modelled as a caller-supplied clock value), Priority,
ContentType, Body. -/
structure Publishing where
  timestamp : Nat
  priority : Nat
  contentType : String
  body : List Nat
deriving DecidableEq

/-- `constructPublishing` from src/message.go, lines 30-51. The `step` pair
carries the message together with the local `contentType` variable used for
the registry lookup. In the sniffing branch the Go source assigns
`msg.ContentType = http.DetectContentType(msg.Body)` but never assigns the
local `contentType` variable, which therefore keeps its zero value `""`;
the pair's second component records exactly that. -/
def constructPublishing (reg : Registry) (now : Nat) (v : Value) (priority : Nat)
    (defaultContentType : String) : Publishing × Option ConstructErr :=
  let msg : Publishing := { timestamp := now, priority := priority, contentType := "", body := [] }
  let step : Publishing × String :=
    match contentTyper v with
    | some ct => ({ msg with contentType := ct }, ct)
    | none =>
      if defaultContentType ≠ "" then
        ({ msg with contentType := defaultContentType }, defaultContentType)
      else
        ({ msg with contentType := detectContentType msg.body }, "")
  match reg step.2 with
  | none => (step.1, some ConstructErr.codecNotFound)
  | some codec =>
    let r := codec.encode v
    ({ step.1 with body := r.1 }, Option.map ConstructErr.encodeError r.2)

/-- The string `constructPublishing` passes to the registry's `Get`: the
value of its local `contentType` variable at the lookup, read off the same
branch structure ("" in the sniffing branch, where the variable is never
assigned). -/
def lookupKey (v : Value) (defaultContentType : String) : String :=
  match contentTyper v with
  | some ct => ct
  | none => if defaultContentType ≠ "" then defaultContentType else ""

/-- The string `constructPublishing` stores in the envelope's `ContentType`
field, read off the same branch structure (the sniffed type in the sniffing
branch). -/
def resolvedEnvelopeType (v : Value) (defaultContentType : String) : String :=
  match contentTyper v with
  | some ct => ct
  | none =>
    if defaultContentType ≠ "" then defaultContentType
    else detectContentType []

/-! ## Options (src/message.go) -/

/-- A leveled logger sink. `noop` is `logger.NoopLogger`; other sinks are
distinguished by a tag so that "which logger is installed" is observable. -/
inductive Logger
  | noop
  | sink (sinkId : Nat)
deriving DecidableEq

/-- A `context.Context` value: `background` is `context.Background()`. -/
inductive Ctx
  | background
  | custom (ctxId : Nat)
deriving DecidableEq

/-- An inbound delivery, as far as the hook types need it. -/
structure Delivery where
  raw : Nat

/-- `MessageIdBuilder func() string`. -/
def MessageIdBuilder : Type := Unit → String

/-- `Typer func(value interface\x7b\x7d) string`. -/
def Typer : Type := Value → String

/-- `PublishingBefore func(context.Context, *amqp.Publishing)`: mutation of
the publishing modelled as returning the updated value. -/
def PublishingBefore : Type := Ctx → Publishing → Publishing

/-- `DeliveryBefore func(context.Context, *amqp.Delivery) context.Context`. -/
def DeliveryBefore : Type := Ctx → Delivery → Ctx

/-- `ErrorBefore func(amqp.Delivery, error) error`. -/
def ErrorBefore : Type := Delivery → String → String

/-- `MaxMessagePriority` constant. -/
def MaxMessagePriority : Nat := 9

/-- `MinMessagePriority` constant. -/
def MinMessagePriority : Nat := 0

/-- One second of `time.Duration`, in nanoseconds. -/
def timeSecond : Int := 1000000000

/-- `defaultWaitDeadline = time.Second * 5`. -/
def defaultWaitDeadline : Int := 5 * timeSecond

/-- `defaultEventBuffer = 1`. -/
def defaultEventBuffer : Int := 1

/-- `defaultHandlerAmount = 1`. -/
def defaultHandlerAmount : Int := 1

/-- `noopMessageIdBuilder`: always returns the empty string. -/
def noopMessageIdBuilder : MessageIdBuilder := fun _ => ""

/-- `noopTyper`: always returns the empty string. -/
def noopTyper : Typer := fun _ => ""

/-- The `messageOptions` record. Its struct declaration lives outside the
given sources; the fields are the ones `defaultOptions` and the option
functions in src/message.go read and write. Zero values follow Go: empty
strings, nil slices. -/
structure messageOptions where
  idBuilder : MessageIdBuilder
  typer : Typer
  minPriority : Nat
  maxPriority : Nat
  applicationId : String
  userId : String
  pubBefore : List PublishingBefore
  deliveryBefore : List DeliveryBefore
  defaultContentType : String

/-- The `wait` sub-struct of `options`. -/
structure WaitConf where
  flag : Bool
  timeout : Int

/-- The `timeout` sub-struct of `options`. -/
structure TimeoutConf where
  base : Int
  cap : Int

/-- The `log` sub-struct of `options`: four leveled loggers. -/
structure LogConf where
  debug : Logger
  info : Logger
  warn : Logger
  error : Logger

end RifAmqp

namespace conn

/-- A live transport handle `*amqp.Connection` (external library type). -/
structure AmqpConnection where
  connId : Nat

/-- `ConnectionOption` configures the manager. Its definition lives in
conn.go, outside the given sources; its content does not affect the dial
wrappers' return values, so it is kept as a tag. -/
structure ConnectionOption where
  optId : Nat

/-- Result of one dial attempt: a transport handle or an error. -/
def DialResult : Type := Except String AmqpConnection

/-- `Dialer func() (*amqp.Connection, error)` from src/conn/dialers.go. -/
def Dialer : Type := Unit → DialResult

end conn

namespace RifAmqp

/-- The `options` record from src/message.go with every field the source
reads or writes. -/
structure options where
  wait : WaitConf
  timeout : TimeoutConf
  subEventChanBuffer : Int
  log : LogConf
  context : Ctx
  msgOpts : messageOptions
  processAllDeliveries : Bool
  handlersAmount : Int
  errorBefore : List ErrorBefore
  lazyCommands : Bool
  connOpts : List conn.ConnectionOption

/-- `defaultOptions()` from src/message.go: the zero-valued `options\x7b\x7d`
with the listed assignments applied. -/
def defaultOptions : options :=
  { wait := { flag := false, timeout := defaultWaitDeadline }
  , timeout := { base := 0, cap := 0 }
  , subEventChanBuffer := defaultEventBuffer
  , log := { debug := .noop, info := .noop, warn := .noop, error := .noop }
  , context := .background
  , msgOpts :=
    { idBuilder := noopMessageIdBuilder
    , typer := noopTyper
    , minPriority := MinMessagePriority
    , maxPriority := MaxMessagePriority
    , applicationId := ""
    , userId := ""
    , pubBefore := []
    , deliveryBefore := []
    , defaultContentType := "application/json" }
  , processAllDeliveries := false
  , handlersAmount := defaultHandlerAmount
  , errorBefore := []
  , lazyCommands := false
  , connOpts := [] }

/-- Deep embedding of the package's option functions (the public `Option`
constructors of src/message.go), each constructor carrying the Go
function's arguments. Go's `from`/`to` of `AllowedPriority` are spelt
`lo`/`hi` (`from` is reserved in Lean). -/
inductive OptionF
  | waitConnection (should : Bool) (timeout : Int)
  | eventChanBuffer (a : Int)
  | context (ctx : Ctx)
  | setMessageIdBuilder (builder : MessageIdBuilder)
  | allowedPriority (lo hi : Nat)
  | applicationId (id : String)
  | userId (id : String)
  | infoLogger (lg : Logger)
  | debugLogger (lg : Logger)
  | errorLogger (lg : Logger)
  | warnLogger (lg : Logger)
  | allLoggers (lg : Logger)
  | publishBefore (before : List PublishingBefore)
  | deliverBefore (before : List DeliveryBefore)
  | processAllDeliveries (v : Bool)
  | handlersAmount (n : Int)
  | lazyDeclaring (v : Bool)
  | setDefaultContentType (t : String)

/-- Application of one option function to an options record, translating
each closure body from src/message.go (mutation of `*options` becomes
returning the updated record). -/
def applyOpt (opts : options) (o : OptionF) : options :=
  match o with
  | .waitConnection should timeout =>
    let opts := { opts with wait := { opts.wait with flag := should } }
    if timeout ≠ 0 then { opts with wait := { opts.wait with timeout := timeout } } else opts
  | .eventChanBuffer a => { opts with subEventChanBuffer := a }
  | .context ctx => { opts with context := ctx }
  | .setMessageIdBuilder builder => { opts with msgOpts := { opts.msgOpts with idBuilder := builder } }
  | .allowedPriority lo hi =>
    { opts with msgOpts := { opts.msgOpts with minPriority := lo, maxPriority := hi } }
  | .applicationId id => { opts with msgOpts := { opts.msgOpts with applicationId := id } }
  | .userId id => { opts with msgOpts := { opts.msgOpts with userId := id } }
  | .infoLogger lg => { opts with log := { opts.log with info := lg } }
  | .debugLogger lg => { opts with log := { opts.log with debug := lg } }
  | .errorLogger lg => { opts with log := { opts.log with error := lg } }
  | .warnLogger lg => { opts with log := { opts.log with warn := lg } }
  | .allLoggers lg => { opts with log := { info := lg, debug := lg, error := lg, warn := lg } }
  | .publishBefore before =>
    { opts with msgOpts := { opts.msgOpts with pubBefore := opts.msgOpts.pubBefore ++ before } }
  | .deliverBefore before =>
    { opts with msgOpts := { opts.msgOpts with deliveryBefore := opts.msgOpts.deliveryBefore ++ before } }
  | .processAllDeliveries v => { opts with processAllDeliveries := v }
  | .handlersAmount n => if n > 0 then { opts with handlersAmount := n } else opts
  | .lazyDeclaring v => { opts with lazyCommands := v }
  | .setDefaultContentType t => { opts with msgOpts := { opts.msgOpts with defaultContentType := t } }

/-- Applying a sequence of option functions in order, as the client's
constructor does with `for _, option := range options`. -/
def applyOpts (opts : options) : List OptionF → options
  | [] => opts
  | o :: rest => applyOpts (applyOpt opts o) rest

/-- True unless the option is an `allowedPriority lo hi` call with
`lo > hi`. -/
def priorityOrdered : OptionF → Bool
  | .allowedPriority lo hi => decide (lo ≤ hi)
  | _ => true

/-! ## The publish path's priority gate -/

/-- Errors out of the publish path: the priority rejection or a
construction failure. -/
inductive PubErr
  | notAllowedPriority
  | construct (e : ConstructErr)
deriving DecidableEq

/-- Modelled from the spec: the `Pub` method's priority gate lives in
client.go, which is not among the given sources. Per the spec, a publish
request with a priority outside `[minPriority, maxPriority]` is rejected
before encoding is attempted; otherwise the message is built by
`constructPublishing` with the configured default content type. -/
def pub (reg : Registry) (now : Nat) (opts : options) (v : Value) (priority : Nat) :
    Except PubErr Publishing :=
  if opts.msgOpts.minPriority ≤ priority ∧ priority ≤ opts.msgOpts.maxPriority then
    match constructPublishing reg now v priority opts.msgOpts.defaultContentType with
    | (msg, none) => .ok msg
    | (_, some e) => .error (.construct e)
  else
    .error .notAllowedPriority

end RifAmqp

namespace conn

/-- A value stored in an `amqp.Table` (Go `map[string]interface\x7b\x7d`):
the defaults injected by the package are strings; caller-supplied entries
of other dynamic types are kept as tagged opaque values. -/
inductive TableValue
  | str (s : String)
  | other (n : Nat)
deriving DecidableEq

/-- An `amqp.Table`, modelled as an association list with Go-map lookup and
update semantics (first binding wins on lookup, update replaces in place or
appends). -/
abbrev Table := List (String × TableValue)

/-- Map lookup `prop[k]` (presence as `isSome`). -/
def Table.get? : Table → String → Option TableValue
  | [], _ => none
  | (k', v) :: rest, k => if k' = k then some v else Table.get? rest k

/-- Map update `prop[k] = v`. -/
def Table.set : Table → String → TableValue → Table
  | [], k, v => [(k, v)]
  | (k', v') :: rest, k, v =>
    if k' = k then (k, v) :: rest else (k', v') :: Table.set rest k v

/-- `defaultProduct` constant from src/conn/dialers.go. -/
def defaultProduct : String := "https://github.com/rifaniponk/amqp"

/-- `defaultVersion` constant. -/
def defaultVersion : String := "v1.2.0"

/-- `defaultPlatform` constant. -/
def defaultPlatform : String := "golang"

/-- `defaultInformation` constant. -/
def defaultInformation : String :=
  "AMQP lib github.com/rifaniponk/amqp for golang on top of https://github.com/streadway/amqp"

/-- `defaultLocale` constant (declared in src/conn/dialers.go; note that
`setupDefaultConfigProperties` never writes it into the table). -/
def defaultLocale : String := "en_US"

/-- `defaultHeartbeat = 10 * time.Second`, in nanoseconds. -/
def defaultHeartbeat : Int := 10 * 1000000000

/-- One conditional default insertion, the Go statement
`if _, ok := prop[k]; !ok { prop[k] = v }`. -/
def condSetDefault (t : Table) (k : String) (v : TableValue) : Table :=
  if (Table.get? t k).isSome then t else Table.set t k v

/-- `setupDefaultConfigProperties` from src/conn/dialers.go, lines 62-79:
replaces a nil/empty table with a fresh one, then inserts each of the
product/version/platform/information defaults only when the key is absent. -/
def setupDefaultConfigProperties (prop : Table) : Table :=
  let prop := if prop.length = 0 then ([] : Table) else prop
  let prop := condSetDefault prop "product" (.str defaultProduct)
  let prop := condSetDefault prop "version" (.str defaultVersion)
  let prop := condSetDefault prop "platform" (.str defaultPlatform)
  let prop := condSetDefault prop "information" (.str defaultInformation)
  prop

/-- Modelled from the spec: the `Connection` state built by `newConnection`
and started by `connect` lives in conn.go, which is not among the given
sources. Per the spec the manager absorbs dial failures into its internal
retry loop, so `connect` never reports an error to its caller; for the dial
wrapper claims only the wrapper's returned error matters, and the state
records what the connection was built from. -/
structure Connection where
  opts : List ConnectionOption
  dialer : Option Dialer

/-- Modelled from the spec: `newConnection` builds the initial connection
state from the options (conn.go, not among the given sources). -/
def newConnection (opts : List ConnectionOption) : Connection := ⟨opts, none⟩

/-- Modelled from the spec: `c.connect(dialer)` installs the dialer and
starts the retry loop; it returns nothing and never fails (conn.go, not
among the given sources). -/
def Connection.connect (c : Connection) (dialer : Dialer) : Connection :=
  { c with dialer := some dialer }

/-- `DialWithDialer` from src/conn/dialers.go: builds a connection, starts
it with the given dialer, and returns `(c, nil)`. -/
def DialWithDialer (dialer : Dialer) (opts : List ConnectionOption) :
    Connection × Option String :=
  let c := newConnection opts
  let c := c.connect dialer
  (c, none)

/-- `Dial` wraps the external `amqp.Dial` (passed in as `amqpDial`) in a
dialer closure over the URL. -/
def Dial (amqpDial : String → DialResult) (url : String) (opts : List ConnectionOption) :
    Connection × Option String :=
  DialWithDialer (fun _ => amqpDial url) opts

/-- A `*tls.Config` (external library type). -/
structure TLSConfig where
  tlsId : Nat

/-- `DialTLS` wraps the external `amqp.DialTLS` (passed in as
`amqpDialTLS`). -/
def DialTLS (amqpDialTLS : String → TLSConfig → DialResult) (url : String)
    (amqps : TLSConfig) (opts : List ConnectionOption) : Connection × Option String :=
  DialWithDialer (fun _ => amqpDialTLS url amqps) opts

/-- The fields of the external `amqp.Config` that the wrappers touch. -/
structure Config where
  properties : Table
  locale : String
  heartbeat : Int

/-- `DialConfig` from src/conn/dialers.go: installs the default handshake
properties on the config, then dials through the external
`amqp.DialConfig` (passed in as `amqpDialConfig`). -/
def DialConfig (amqpDialConfig : String → Config → DialResult) (url : String)
    (config : Config) (opts : List ConnectionOption) : Connection × Option String :=
  let config := { config with properties := setupDefaultConfigProperties config.properties }
  DialWithDialer (fun _ => amqpDialConfig url config) opts

/-- An `io.ReadWriteCloser` (external library type). -/
structure RWStream where
  streamId : Nat

/-- `Open` wraps the external `amqp.Open` (passed in as `amqpOpen`). -/
def Open (amqpOpen : RWStream → Config → DialResult) (stream : RWStream)
    (config : Config) (opts : List ConnectionOption) : Connection × Option String :=
  DialWithDialer (fun _ => amqpOpen stream config) opts

end conn

namespace RifAmqp

/-! ## Concrete fixtures used by closed witness theorems -/

/-- A registry with no codecs at all. -/
def regNone : Registry := fun _ => none

/-- A codec that encodes any value to its payload byte, never failing. -/
def natCodec : Codec :=
  ⟨fun v => match v with
    | .typed _ n => ([n], none)
    | .plain n => ([n], none)⟩

/-- A registry carrying `natCodec` under `application/json` only. -/
def jsonReg : Registry :=
  fun ct => if ct = "application/json" then some natCodec else none

/-- A registry carrying `natCodec` exactly under the type the sniffer
reports for an empty body. -/
def sniffOnlyReg : Registry :=
  fun ct => if ct = "text/plain; charset=utf-8" then some natCodec else none

/-- A registry carrying `natCodec` under the empty string only. -/
def emptyKeyReg : Registry :=
  fun ct => if ct = "" then some natCodec else none

/-- A registry carrying `natCodec` under `application/x-custom` only. -/
def customReg : Registry :=
  fun ct => if ct = "application/x-custom" then some natCodec else none

/-- A caller-supplied properties table overriding `product` and supplying
`locale`. -/
def sampleTable : conn.Table :=
  [("product", .str "my-app"), ("locale", .str "fr_FR")]

end RifAmqp

namespace RifAmqp

/-! ## Shared lemmas about the construction pipeline -/

/-- Restatement of `constructPublishing` in terms of the registry lookup key
and the envelope content type, proved equal branch by branch. -/
theorem constructPublishing_eq (reg : Registry) (now : Nat) (v : Value) (p : Nat)
    (dct : String) :
    constructPublishing reg now v p dct =
      match reg (lookupKey v dct) with
      | none =>
        ({ timestamp := now, priority := p, contentType := resolvedEnvelopeType v dct,
            body := [] },
          some ConstructErr.codecNotFound)
      | some c =>
        ({ timestamp := now, priority := p, contentType := resolvedEnvelopeType v dct,
            body := (c.encode v).1 },
          Option.map ConstructErr.encodeError (c.encode v).2) := by
  cases v with
  | typed ct pl =>
    rcases hreg : reg (lookupKey (.typed ct pl) dct) with _ | c <;>
      simp_all [constructPublishing, lookupKey, resolvedEnvelopeType, contentTyper]
  | plain pl =>
    by_cases h : dct = ""
    · subst h
      rcases hreg : reg (lookupKey (.plain pl) "") with _ | c <;>
        simp_all [constructPublishing, lookupKey, resolvedEnvelopeType, contentTyper,
          detectContentType]
    · rcases hreg : reg (lookupKey (.plain pl) dct) with _ | c <;>
        simp_all [constructPublishing, lookupKey, resolvedEnvelopeType, contentTyper]

end RifAmqp

namespace RifAmqp

/-- C1: refuted as stated; the theorem exhibits the slip at the failing
input. For a value without the `ContentTyper` capability and an empty
configured default, the sniffing branch stores the sniffed type
`text/plain; charset=utf-8` in the envelope, yet construction fails with
`CodecNotFound` against a registry that has a codec exactly under that
sniffed type, while it succeeds against a registry keyed by the empty
string: the string passed to the registry's `Get` in the sniffing branch is
`""`, not the sniffed content type, so content-type resolution does not
yield a non-empty lookup key in this branch. -/
theorem constructPublishing_sniff_lookup_uses_empty_key :
    (constructPublishing sniffOnlyReg 0 (Value.plain 0) 0 "").1.contentType
        = "text/plain; charset=utf-8" ∧
    sniffOnlyReg "text/plain; charset=utf-8" = some natCodec ∧
    (constructPublishing sniffOnlyReg 0 (Value.plain 0) 0 "").2
        = some ConstructErr.codecNotFound ∧
    (constructPublishing emptyKeyReg 0 (Value.plain 0) 0 "").2 = none :=
  ⟨rfl, rfl, rfl, rfl⟩

/-- C2: whenever no codec is registered for the string the code looks up,
`constructPublishing` fails with the named `CodecNotFound` error and the
returned envelope carries no body bytes. -/
theorem constructPublishing_codec_miss (reg : Registry) (now : Nat) (v : Value) (p : Nat)
    (dct : String) (h : reg (lookupKey v dct) = none) :
    (constructPublishing reg now v p dct).2 = some ConstructErr.codecNotFound ∧
    (constructPublishing reg now v p dct).1.body = [] := by
  rw [constructPublishing_eq, h]
  exact ⟨rfl, rfl⟩

/-- Witness for C2 at a concrete input: the empty registry, a plain value
and the default content type. -/
theorem constructPublishing_codec_miss_w :
    (constructPublishing regNone 0 (Value.plain 0) 0 "application/json").2
        = some ConstructErr.codecNotFound ∧
    (constructPublishing regNone 0 (Value.plain 0) 0 "application/json").1.body = [] :=
  constructPublishing_codec_miss regNone 0 (Value.plain 0) 0 "application/json" rfl

/-- C6: a value with the `ContentTyper` capability has its self-declared
type used verbatim as the envelope's `ContentType` and as the codec lookup
key, overriding any configured default: the lookup key is the declared
type, and the outcome depends neither on the configured default nor on the
registry beyond its entry at the declared type. -/
theorem contentTyper_overrides_default (reg reg' : Registry) (now : Nat) (p : Nat)
    (dct dct' ct : String) (pl : Nat) (h : reg ct = reg' ct) :
    lookupKey (Value.typed ct pl) dct = ct ∧
    (constructPublishing reg now (Value.typed ct pl) p dct).1.contentType = ct ∧
    (constructPublishing reg now (Value.typed ct pl) p dct).2
        = (constructPublishing reg' now (Value.typed ct pl) p dct').2 ∧
    (constructPublishing reg now (Value.typed ct pl) p dct).1.body
        = (constructPublishing reg' now (Value.typed ct pl) p dct').1.body := by
  have hk : lookupKey (Value.typed ct pl) dct = ct := rfl
  have hk' : lookupKey (Value.typed ct pl) dct' = ct := rfl
  rw [constructPublishing_eq, constructPublishing_eq, hk, hk', h]
  rcases hreg : reg' ct with _ | c <;>
    simp [resolvedEnvelopeType, contentTyper]

/-- Witness for C6 at a concrete input: a value declaring
`application/x-custom` against the configured default `application/json`. -/
theorem contentTyper_overrides_default_w :
    lookupKey (Value.typed "application/x-custom" 7) "application/json"
        = "application/x-custom" ∧
    (constructPublishing customReg 0 (Value.typed "application/x-custom" 7) 0
        "application/json").1.contentType = "application/x-custom" ∧
    (constructPublishing customReg 0 (Value.typed "application/x-custom" 7) 0
        "application/json").2
      = (constructPublishing customReg 0 (Value.typed "application/x-custom" 7) 0 "").2 ∧
    (constructPublishing customReg 0 (Value.typed "application/x-custom" 7) 0
        "application/json").1.body
      = (constructPublishing customReg 0 (Value.typed "application/x-custom" 7) 0 "").1.body :=
  contentTyper_overrides_default customReg customReg 0 0 "application/json" ""
    "application/x-custom" 7 rfl

/-- C3: a publish request with a priority inside `[minPriority, maxPriority]`
goes through encoding (given a registered codec for the looked-up content
type whose encoder succeeds, the published body is the encoder's output);
a priority outside the range is rejected with the priority error before any
codec lookup or encode work: the outcome is then independent of the
registry altogether. -/
theorem pub_priority_gate (reg reg' : Registry) (now : Nat) (opts : options) (v : Value)
    (p : Nat) :
    (¬(opts.msgOpts.minPriority ≤ p ∧ p ≤ opts.msgOpts.maxPriority) →
      pub reg now opts v p = .error .notAllowedPriority ∧
      pub reg now opts v p = pub reg' now opts v p) ∧
    (∀ (c : Codec) (b : List Nat),
      opts.msgOpts.minPriority ≤ p → p ≤ opts.msgOpts.maxPriority →
      reg (lookupKey v opts.msgOpts.defaultContentType) = some c →
      c.encode v = (b, none) →
      ∃ msg, pub reg now opts v p = .ok msg ∧ msg.body = b ∧ msg.priority = p) := by
  constructor
  · intro h
    constructor <;> simp [pub, h]
  · intro c b h1 h2 hreg henc
    unfold pub
    rw [if_pos ⟨h1, h2⟩, constructPublishing_eq, hreg]
    simp only [henc]
    exact ⟨_, rfl, rfl, rfl⟩

/-- Witness for C3 at concrete inputs: with the default options (range
`[0, 9]`) priority 12 is rejected identically under two different
registries, and priority 3 publishes the encoded body through the
registered json codec. -/
theorem pub_priority_gate_w :
    (pub regNone 0 defaultOptions (Value.plain 0) 12 = .error .notAllowedPriority ∧
      pub regNone 0 defaultOptions (Value.plain 0) 12
        = pub jsonReg 0 defaultOptions (Value.plain 0) 12) ∧
    (∃ msg, pub jsonReg 0 defaultOptions (Value.plain 0) 3 = .ok msg ∧
      msg.body = [0] ∧ msg.priority = 3) :=
  ⟨(pub_priority_gate regNone jsonReg 0 defaultOptions (Value.plain 0) 12).1 (by decide),
   (pub_priority_gate jsonReg regNone 0 defaultOptions (Value.plain 0) 3).2 natCodec [0]
     (by decide) (by decide) rfl rfl⟩

end RifAmqp

namespace RifAmqp

/-! ## Shared lemmas about option application -/

/-- One option application preserves the priority-bound invariant, provided
an `allowedPriority` call has ordered arguments. -/
theorem applyOpt_priority_inv (opts : options) (o : OptionF)
    (ho : priorityOrdered o = true)
    (h : opts.msgOpts.minPriority ≤ opts.msgOpts.maxPriority) :
    (applyOpt opts o).msgOpts.minPriority ≤ (applyOpt opts o).msgOpts.maxPriority := by
  cases o <;>
    first
    | (simp [priorityOrdered] at ho; simpa [applyOpt] using ho)
    | (simp only [applyOpt]; split <;> simpa using h)
    | simpa [applyOpt] using h

/-- Option-sequence application preserves the priority-bound invariant when
every `allowedPriority` call in the sequence has ordered arguments. -/
theorem applyOpts_priority_inv (l : List OptionF) (opts : options)
    (hall : l.all priorityOrdered = true)
    (h : opts.msgOpts.minPriority ≤ opts.msgOpts.maxPriority) :
    (applyOpts opts l).msgOpts.minPriority ≤ (applyOpts opts l).msgOpts.maxPriority := by
  induction l generalizing opts with
  | nil => simpa [applyOpts] using h
  | cons o rest ih =>
    rw [List.all_cons, Bool.and_eq_true] at hall
    exact ih (applyOpt opts o) hall.2 (applyOpt_priority_inv opts o hall.1 h)

/-- One option application keeps the handler pool size at least 1. -/
theorem applyOpt_handlers_inv (opts : options) (o : OptionF)
    (h : 1 ≤ opts.handlersAmount) : 1 ≤ (applyOpt opts o).handlersAmount := by
  cases o <;>
    first
    | simpa [applyOpt] using h
    | (simp only [applyOpt]; split <;> first | simpa using h | (rename_i hn; simp; omega))

end RifAmqp

namespace conn

/-! ## Shared lemmas about Table and the default handshake properties -/

/-- Setting a key makes it present with that value. -/
theorem Table.get_set_self (t : Table) (k : String) (v : TableValue) :
    Table.get? (Table.set t k v) k = some v := by
  induction t with
  | nil => simp [Table.set, Table.get?]
  | cons hd rest ih =>
    obtain ⟨k0, v0⟩ := hd
    by_cases h0 : k0 = k <;> simp [Table.set, Table.get?, h0, ih]

/-- Setting one key does not change the lookup of another. -/
theorem Table.get_set_ne (t : Table) (k kset : String) (v : TableValue) (h : kset ≠ k) :
    Table.get? (Table.set t kset v) k = Table.get? t k := by
  induction t with
  | nil => simp [Table.set, Table.get?, h]
  | cons hd rest ih =>
    obtain ⟨k0, v0⟩ := hd
    by_cases h0 : k0 = kset
    · subst h0
      simp [Table.set, Table.get?, h]
    · simp [Table.set, Table.get?, h0, ih]

/-- A conditional default insertion keeps every caller-supplied binding. -/
theorem condSetDefault_keeps (t : Table) (d : String) (dv : TableValue) (k : String)
    (v : TableValue) (h : Table.get? t k = some v) :
    Table.get? (condSetDefault t d dv) k = some v := by
  unfold condSetDefault
  by_cases hd : (Table.get? t d).isSome
  · simp [hd, h]
  · by_cases hk : d = k
    · subst hk
      simp [h] at hd
    · simp [hd, Table.get_set_ne t k d dv hk, h]

/-- A conditional default insertion keeps every present key present. -/
theorem condSetDefault_isSome (t : Table) (d : String) (dv : TableValue) (k : String)
    (h : (Table.get? t k).isSome) :
    (Table.get? (condSetDefault t d dv) k).isSome := by
  obtain ⟨v, hv⟩ := Option.isSome_iff_exists.mp h
  simp [condSetDefault_keeps t d dv k v hv]

/-- After a conditional default insertion its own key is present. -/
theorem condSetDefault_self (t : Table) (d : String) (dv : TableValue) :
    (Table.get? (condSetDefault t d dv) d).isSome := by
  unfold condSetDefault
  by_cases hd : (Table.get? t d).isSome
  · simp [hd]
  · simp [hd, Table.get_set_self]

/-- A conditional default insertion leaves the lookup of every other key
unchanged. -/
theorem condSetDefault_ne (t : Table) (d : String) (dv : TableValue) (k : String)
    (h : d ≠ k) :
    Table.get? (condSetDefault t d dv) k = Table.get? t k := by
  unfold condSetDefault
  by_cases hd : (Table.get? t d).isSome
  · simp [hd]
  · simp [hd, Table.get_set_ne t k d dv h]

/-- The nil-map normalization step of `setupDefaultConfigProperties` is the
identity on the model. -/
theorem empty_norm (t : Table) : (if t.length = 0 then ([] : Table) else t) = t := by
  cases t <;> simp

/-- `setupDefaultConfigProperties` as the four-step composition, with the
nil-map normalization removed. -/
theorem setupDefaultConfigProperties_unfold (t : Table) :
    setupDefaultConfigProperties t =
      condSetDefault
        (condSetDefault
          (condSetDefault
            (condSetDefault t "product" (.str defaultProduct))
            "version" (.str defaultVersion))
          "platform" (.str defaultPlatform))
        "information" (.str defaultInformation) := by
  unfold setupDefaultConfigProperties
  rw [empty_norm]

end conn

namespace RifAmqp

/-- C5: refuted as stated at the empty caller table; after default-property
setup there is no `locale` entry in the handshake table (the
`defaultLocale` constant exists but `setupDefaultConfigProperties` never
writes it). -/
theorem setupDefaultConfigProperties_no_locale :
    conn.Table.get? (conn.setupDefaultConfigProperties ([] : conn.Table)) "locale"
      = none := by decide

/-- C5 (amended): after default-property setup the handshake table contains
entries for product, version, platform and information; every
caller-supplied binding (in particular for any of the five keys the claim
names) is preserved unchanged; and the `locale` lookup is exactly what the
caller supplied — no locale entry is injected. -/
theorem setupDefaultConfigProperties_defaults_preserved (t : conn.Table) :
    ((conn.Table.get? (conn.setupDefaultConfigProperties t) "product").isSome ∧
     (conn.Table.get? (conn.setupDefaultConfigProperties t) "version").isSome ∧
     (conn.Table.get? (conn.setupDefaultConfigProperties t) "platform").isSome ∧
     (conn.Table.get? (conn.setupDefaultConfigProperties t) "information").isSome) ∧
    (∀ k v, conn.Table.get? t k = some v →
      conn.Table.get? (conn.setupDefaultConfigProperties t) k = some v) ∧
    conn.Table.get? (conn.setupDefaultConfigProperties t) "locale"
      = conn.Table.get? t "locale" := by
  rw [conn.setupDefaultConfigProperties_unfold]
  refine ⟨⟨?_, ?_, ?_, ?_⟩, ?_, ?_⟩
  · exact conn.condSetDefault_isSome _ _ _ _
      (conn.condSetDefault_isSome _ _ _ _
        (conn.condSetDefault_isSome _ _ _ _ (conn.condSetDefault_self _ _ _)))
  · exact conn.condSetDefault_isSome _ _ _ _
      (conn.condSetDefault_isSome _ _ _ _ (conn.condSetDefault_self _ _ _))
  · exact conn.condSetDefault_isSome _ _ _ _ (conn.condSetDefault_self _ _ _)
  · exact conn.condSetDefault_self _ _ _
  · intro k v hv
    exact conn.condSetDefault_keeps _ _ _ _ _
      (conn.condSetDefault_keeps _ _ _ _ _
        (conn.condSetDefault_keeps _ _ _ _ _ (conn.condSetDefault_keeps _ _ _ _ _ hv)))
  · rw [conn.condSetDefault_ne _ _ _ _ (by decide),
      conn.condSetDefault_ne _ _ _ _ (by decide),
      conn.condSetDefault_ne _ _ _ _ (by decide),
      conn.condSetDefault_ne _ _ _ _ (by decide)]

/-- Witness for C5 (amended) at a concrete table: an override for `product`
and a caller-supplied `locale`, both of which survive the setup. -/
theorem setupDefaultConfigProperties_defaults_preserved_w :
    (conn.Table.get? (conn.setupDefaultConfigProperties sampleTable) "product").isSome ∧
    conn.Table.get? (conn.setupDefaultConfigProperties sampleTable) "product"
      = some (conn.TableValue.str "my-app") ∧
    conn.Table.get? (conn.setupDefaultConfigProperties sampleTable) "locale"
      = some (conn.TableValue.str "fr_FR") :=
  ⟨(setupDefaultConfigProperties_defaults_preserved sampleTable).1.1,
   (setupDefaultConfigProperties_defaults_preserved sampleTable).2.1 "product"
     (conn.TableValue.str "my-app") rfl,
   ((setupDefaultConfigProperties_defaults_preserved sampleTable).2.2).trans rfl⟩

end RifAmqp

namespace RifAmqp

/-- C4: every top-level dial wrapper — `DialWithDialer`, `Dial`, `DialTLS`,
`DialConfig`, `Open` — returns a nil error for every URL, external dial
function, config and option list; connectivity failure is never surfaced
from the dial call itself. -/
theorem dial_wrappers_never_error :
    (∀ (d : conn.Dialer) (opts : List conn.ConnectionOption),
      (conn.DialWithDialer d opts).2 = none) ∧
    (∀ (amqpDial : String → conn.DialResult) (url : String)
      (opts : List conn.ConnectionOption), (conn.Dial amqpDial url opts).2 = none) ∧
    (∀ (amqpDialTLS : String → conn.TLSConfig → conn.DialResult) (url : String)
      (amqps : conn.TLSConfig) (opts : List conn.ConnectionOption),
      (conn.DialTLS amqpDialTLS url amqps opts).2 = none) ∧
    (∀ (amqpDialConfig : String → conn.Config → conn.DialResult) (url : String)
      (config : conn.Config) (opts : List conn.ConnectionOption),
      (conn.DialConfig amqpDialConfig url config opts).2 = none) ∧
    (∀ (amqpOpen : conn.RWStream → conn.Config → conn.DialResult) (stream : conn.RWStream)
      (config : conn.Config) (opts : List conn.ConnectionOption),
      (conn.Open amqpOpen stream config opts).2 = none) :=
  ⟨fun _ _ => rfl, fun _ _ _ => rfl, fun _ _ _ _ => rfl, fun _ _ _ _ => rfl,
   fun _ _ _ _ => rfl⟩

/-- C7: refuted as stated; `AllowedPriority` stores its arguments verbatim,
so the single option call `AllowedPriority(5, 2)` applied to the defaults
yields `minPriority = 5 > 2 = maxPriority`. -/
theorem allowedPriority_can_invert_bounds :
    ¬ ((applyOpts defaultOptions [OptionF.allowedPriority 5 2]).msgOpts.minPriority ≤
        (applyOpts defaultOptions [OptionF.allowedPriority 5 2]).msgOpts.maxPriority) := by
  decide

/-- C7 (amended): for every options value reachable by applying a finite
sequence of option functions to the defaults in which every
`AllowedPriority` call has ordered arguments (`lo ≤ hi`), the invariant
`minPriority ≤ maxPriority` holds. -/
theorem priority_bounds_invariant_ordered (l : List OptionF)
    (hall : l.all priorityOrdered = true) :
    (applyOpts defaultOptions l).msgOpts.minPriority ≤
      (applyOpts defaultOptions l).msgOpts.maxPriority :=
  applyOpts_priority_inv l defaultOptions hall (by decide)

/-- Witness for C7 (amended) at a concrete sequence containing an ordered
`AllowedPriority` call. -/
theorem priority_bounds_invariant_ordered_w :
    (applyOpts defaultOptions
        [OptionF.allowedPriority 1 3, OptionF.handlersAmount 2]).msgOpts.minPriority ≤
      (applyOpts defaultOptions
        [OptionF.allowedPriority 1 3, OptionF.handlersAmount 2]).msgOpts.maxPriority :=
  priority_bounds_invariant_ordered [OptionF.allowedPriority 1 3, OptionF.handlersAmount 2]
    (by decide)

/-- C8: for every finite sequence of option functions applied to the
defaults — `HandlersAmount` with zero or negative arguments included, which
the setter ignores — the handler pool size stays at least 1. -/
theorem handlersAmount_ge_one (l : List OptionF) :
    1 ≤ (applyOpts defaultOptions l).handlersAmount := by
  have aux : ∀ (l : List OptionF) (opts : options), 1 ≤ opts.handlersAmount →
      1 ≤ (applyOpts opts l).handlersAmount := by
    intro l
    induction l with
    | nil => intro opts h; simpa [applyOpts] using h
    | cons o rest ih =>
      intro opts h
      exact ih (applyOpt opts o) (applyOpt_handlers_inv opts o h)
  exact aux l defaultOptions (by decide)

/-- C9: with no option functions supplied the defaults are: content type
`application/json`, wait timeout five seconds, event channel buffer 1,
handler amount 1, allowed priority range `[0, 9]`, a message-id builder
returning the empty string, and the no-op logger at all four levels. -/
theorem defaultOptions_values :
    defaultOptions.msgOpts.defaultContentType = "application/json" ∧
    defaultOptions.wait.timeout = 5 * timeSecond ∧
    defaultOptions.subEventChanBuffer = 1 ∧
    defaultOptions.handlersAmount = 1 ∧
    defaultOptions.msgOpts.minPriority = 0 ∧
    defaultOptions.msgOpts.maxPriority = 9 ∧
    defaultOptions.msgOpts.idBuilder () = "" ∧
    defaultOptions.log.debug = Logger.noop ∧
    defaultOptions.log.info = Logger.noop ∧
    defaultOptions.log.warn = Logger.noop ∧
    defaultOptions.log.error = Logger.noop :=
  ⟨rfl, rfl, rfl, rfl, rfl, rfl, rfl, rfl, rfl, rfl, rfl⟩

/-- C10: `WaitConnection(should, 0)` sets the wait flag to `should` and
leaves the configured wait timeout unchanged; only a non-zero timeout
argument replaces it. -/
theorem waitConnection_preserves_timeout (o : options) (should : Bool) (t : Int) :
    (applyOpt o (OptionF.waitConnection should t)).wait.flag = should ∧
    (applyOpt o (OptionF.waitConnection should 0)).wait.timeout = o.wait.timeout ∧
    (t ≠ 0 → (applyOpt o (OptionF.waitConnection should t)).wait.timeout = t) := by
  refine ⟨?_, ?_, ?_⟩
  · simp only [applyOpt]
    split <;> rfl
  · simp [applyOpt]
  · intro ht
    simp [applyOpt, ht]

/-- Witness for C10 at the default options: the zero-timeout call flips the
flag while the five-second default survives, and a non-zero timeout
replaces it. -/
theorem waitConnection_preserves_timeout_w :
    (applyOpt defaultOptions (OptionF.waitConnection true 0)).wait.flag = true ∧
    (applyOpt defaultOptions (OptionF.waitConnection true 0)).wait.timeout = 5 * timeSecond ∧
    (applyOpt defaultOptions (OptionF.waitConnection true 7)).wait.timeout = 7 :=
  ⟨(waitConnection_preserves_timeout defaultOptions true 0).1,
   ((waitConnection_preserves_timeout defaultOptions true 0).2.1).trans rfl,
   (waitConnection_preserves_timeout defaultOptions true 7).2.2 (by decide)⟩

end RifAmqp
